import Mathlib

/-!
Verification of the survey report generator (`main.go` of qjcg/driving).

Modelling conventions:

* Go strings / byte slices are modelled as `List Char`.
* Go `float64` arithmetic is modelled by exact rational arithmetic (`ℚ`).
  A floating point division whose divisor is zero produces a non-finite
  value in Go (`NaN` for `0/0`, `±Inf` otherwise); this is modelled by
  `fdiv` returning `none`.  All other quantities appearing in the claims
  are exactly representable in binary floating point (integer counts,
  sums of quarters), so the rational model is faithful for the
  definedness, bound and exact-value properties proved here.
* Go `int` is modelled as `ℤ` (no claim involves overflow).
-/

/-- Classification buckets of the `switch` statement in `NewReport`
(`main.go` lines 197–204).  `unclassified` models the implicit
fall-through of the `switch` for a negative score: no counter is
incremented for such a record. -/
inductive Bucket where
  | promoter
  | passive
  | detractor
  | unclassified
  deriving DecidableEq, BEq

/-- The three-way classification performed by the `switch` in `NewReport`:
`case s.Q410 >= 9: promoters++`, `case s.Q410 >= 7: passives++`,
`case s.Q410 >= 0: detractors++`, and no case for `s.Q410 < 0`. -/
def classify (r : ℤ) : Bucket :=
  if 9 ≤ r then Bucket.promoter
  else if 7 ≤ r then Bucket.passive
  else if 0 ≤ r then Bucket.detractor
  else Bucket.unclassified

/-- One respondent's answers (`Survey` struct, `main.go` lines 48–123).
Integer-rated questions (decoded in Go with a `,string` JSON tag) are `ℤ`
with Go zero value `0`; free-text fields are `List Char` with Go zero
value the empty string. -/
structure Survey where
  Country : List Char := []
  Course : List Char := []
  CourseVer : List Char := []
  Email : List Char := []
  FoundVer : List Char := []
  Instructor : List Char := []
  Language : List Char := []
  Modality : List Char := []
  Name : List Char := []
  Progress : List Char := []
  Q1508 : List Char := []
  Q207 : ℤ := 0
  Q208 : ℤ := 0
  Q209 : ℤ := 0
  Q210 : ℤ := 0
  Q508 : List Char := []
  Q306 : ℤ := 0
  Q307 : ℤ := 0
  Q308 : ℤ := 0
  Q320 : ℤ := 0
  Q310 : ℤ := 0
  Q318 : List Char := []
  Q1901 : List Char := []
  Q1002 : ℤ := 0
  Q1003 : ℤ := 0
  Q1004 : ℤ := 0
  Q1005 : ℤ := 0
  Q1907 : List Char := []
  Q311 : ℤ := 0
  Q410 : ℤ := 0
  Q403 : List Char := []
  Q109 : List Char := []
  Q105 : List Char := []
  Q111 : List Char := []
  Q112 : List Char := []
  Q113 : List Char := []
  Q101 : List Char := []
  Q1101 : List Char := []
  Q1201 : List Char := []
  Q1801 : List Char := []
  Q1401 : List Char := []
  Q1701 : List Char := []
  StartDate : List Char := []
  Subscript : List Char := []
  SurveyDate : List Char := []
  SurveyVer : List Char := []
  deriving DecidableEq

/-- Aggregate result over a batch (`Report` struct, `main.go` lines
32–45).  The four per-category comment maps of the Go struct are never
populated by the aggregation logic and are omitted.  The averages and the
NPS score are `Option ℚ`: `none` models the non-finite `float64` value
(NaN) produced by a zero divisor. -/
structure Report where
  Responses : ℕ
  CurriculumAvg : Option ℚ
  InstructorAvg : Option ℚ
  EnvironmentAvg : Option ℚ
  OverallAvg : Option ℚ
  NPS : Option ℚ
  deriving DecidableEq

/-- Model of `float64` division: `none` when the divisor is zero (the Go
result is then NaN or ±Inf, in this program always NaN because every
zero-divisor call site also has a zero dividend). -/
def fdiv (x y : ℚ) : Option ℚ := if y = 0 then none else some (x / y)

/-- `NPS` (`main.go` lines 27–29):
`float64(promoters-detractors) / float64(promoters+passives+detractors) * 100`. -/
def NPS (promoters passives detractors : ℤ) : Option ℚ :=
  (fdiv ((promoters : ℚ) - (detractors : ℚ))
      ((promoters : ℚ) + (passives : ℚ) + (detractors : ℚ))).map (fun q => q * 100)

/-- The `promoters` counter accumulated by the loop in `NewReport`. -/
def promoters (l : List Survey) : ℕ :=
  l.countP (fun s => decide (classify s.Q410 = Bucket.promoter))

/-- The `passives` counter accumulated by the loop in `NewReport`. -/
def passives (l : List Survey) : ℕ :=
  l.countP (fun s => decide (classify s.Q410 = Bucket.passive))

/-- The `detractors` counter accumulated by the loop in `NewReport`. -/
def detractors (l : List Survey) : ℕ :=
  l.countP (fun s => decide (classify s.Q410 = Bucket.detractor))

/-- `curriculumAvgsSum` accumulated by the loop in `NewReport`
(`main.go` line 191): per record `float64(Q207+Q208+Q209+Q210) / 4.0`. -/
def curriculumAvgsSum (l : List Survey) : ℚ :=
  (l.map (fun s => ((s.Q207 + s.Q208 + s.Q209 + s.Q210 : ℤ) : ℚ) / 4)).sum

/-- `instructorAvgsSum` accumulated by the loop in `NewReport`
(`main.go` line 192): per record `float64(Q306+Q307+Q308+Q320) / 4.0`
(`Q310` is declared in the struct but not used here). -/
def instructorAvgsSum (l : List Survey) : ℚ :=
  (l.map (fun s => ((s.Q306 + s.Q307 + s.Q308 + s.Q320 : ℤ) : ℚ) / 4)).sum

/-- `environmentAvgsSum` accumulated by the loop in `NewReport`
(`main.go` line 193): per record `float64(Q1002+Q1003+Q1004+Q1005) / 4.0`. -/
def environmentAvgsSum (l : List Survey) : ℚ :=
  (l.map (fun s => ((s.Q1002 + s.Q1003 + s.Q1004 + s.Q1005 : ℤ) : ℚ) / 4)).sum

/-- `overallAvgsSum` accumulated by the loop in `NewReport`
(`main.go` line 194): per record `float64(Q311)`. -/
def overallAvgsSum (l : List Survey) : ℚ :=
  (l.map (fun s => ((s.Q311 : ℤ) : ℚ))).sum

/-- `NewReport` (`main.go` lines 183–219): one pass tallying sums and
NPS buckets, then `n := float64(len(surveys))` and the final divisions.
`Responses` is `int(n) = len(surveys)`. -/
def NewReport (surveys : List Survey) : Report :=
  let n : ℚ := surveys.length
  { Responses := surveys.length
    CurriculumAvg := fdiv (curriculumAvgsSum surveys) n
    InstructorAvg := fdiv (instructorAvgsSum surveys) n
    EnvironmentAvg := fdiv (environmentAvgsSum surveys) n
    OverallAvg := fdiv (overallAvgsSum surveys) n
    NPS := NPS ((promoters surveys : ℤ)) ((passives surveys : ℤ)) ((detractors surveys : ℤ)) }

/-! ### Text parser (`TxtToJSON`, `main.go` lines 236–277) -/

/-- Model of `strings.Split(line, "=")`: split at every occurrence of
`'='`.  The result is always nonempty; `headD`/`tail` in the cons case
prepend the character to the first component. -/
def splitEq : List Char → List (List Char)
  | [] => [[]]
  | c :: cs =>
    let r := splitEq cs
    if c = '=' then [] :: r
    else (c :: r.headD []) :: r.tail

/-- Model of `strings.Replace(question[0], "-", "", -1)`: remove every
dash. -/
def dropDash (cs : List Char) : List Char := cs.filter (fun c => c != '-')

/-- Model of `strings.Contains(line, "=")`. -/
def lineHasEq (line : List Char) : Bool := line.contains '='

/-- Whether `pat` is a prefix of the second argument (helper for
`hasSub`). -/
def startsWith : List Char → List Char → Bool
  | [], _ => true
  | _ :: _, [] => false
  | p :: ps, c :: cs => p == c && startsWith ps cs

/-- Model of `strings.Contains(s, pat)`: some suffix of `s` starts with
`pat`. -/
def hasSub (pat : List Char) : List Char → Bool
  | [] => startsWith pat []
  | c :: cs => startsWith pat (c :: cs) || hasSub pat cs

/-- Model of `strings.Replace(line, ",\n", "\n", 1)`: scan left to
right and replace the first adjacent pair `','`,`'\n'`. -/
def replaceCommaNl : List Char → List Char
  | [] => []
  | [c] => [c]
  | c :: d :: rest =>
    if c = ',' ∧ d = '\n' then '\n' :: rest
    else c :: replaceCommaNl (d :: rest)

/-- One data line of `TxtToJSON` (`main.go` lines 257–270): split at `=`,
strip dashes from the key, format `  "key": "value",\n` with key and
value copied verbatim (no escaping), and drop the trailing comma when the
formatted line mentions `survey_ver`.  The Go code indexes `question[1]`,
which exists because every line processed here contains `=`; `getD`
supplies an irrelevant default for the unreachable case. -/
def dataLine (line : List Char) : List Char :=
  let question := splitEq line
  let key := dropDash (question.headD [])
  let value := question.getD 1 []
  let out := ("  \"").data ++ key ++ ("\": \"").data ++ value ++ ("\",\n").data
  if hasSub (("survey_ver").data) out then replaceCommaNl out else out

/-- The scanning loop of `TxtToJSON` (`main.go` lines 243–271): a line
without `=` stops the scan with the fixed error message `invalid input`
and the buffer accumulated so far; the separator line `=` closes the
current JSON object and opens a new one; any other line appends its
formatted data line. -/
def scanLines : List Char → List (List Char) → List Char × Option (List Char)
  | buf, [] => (buf, none)
  | buf, line :: rest =>
    if lineHasEq line = false then (buf, some (("invalid input").data))
    else if line = ("=").data then scanLines (buf ++ ("\x7d\n\x7b\n").data) rest
    else scanLines (buf ++ dataLine line) rest

/-- Model of `bytes.TrimRight(b, "\x7b\n")`: drop trailing characters
that are an opening brace or a newline. -/
def trimBraceNl (s : List Char) : List Char :=
  (s.reverse.dropWhile (fun c => c == '\x7b' || c == '\n')).reverse

/-- `TxtToJSON` (`main.go` lines 236–277) over the input's lines: the
buffer starts with an opening object; on success the trailing
brace/newline run is trimmed; on error the untrimmed buffer is returned
together with the error. -/
def TxtToJSON (lines : List (List Char)) : List Char × Option (List Char) :=
  match scanLines (("\x7b\n").data) lines with
  | (buf, none) => (trimBraceNl buf, none)
  | (buf, some e) => (buf, some e)

/-! ### A JSON object-stream checker (the decoder's view of the
`TxtToJSON` output, used to state what "emitted as a complete,
decodable record" means) -/

/-- JSON short escapes (the `\uXXXX` form does not occur in any input
considered here and is omitted; every theorem below only becomes easier
to satisfy for an encoder that used it). -/
def unesc (c : Char) : Option Char :=
  if c = '"' then some '"'
  else if c = '\\' then some '\\'
  else if c = '/' then some '/'
  else if c = 'n' then some '\n'
  else if c = 't' then some '\t'
  else if c = 'r' then some '\r'
  else if c = 'b' then some (Char.ofNat 8)
  else if c = 'f' then some (Char.ofNat 12)
  else none

/-- Parse the body of a JSON string literal, the opening quote already
consumed; the flag records that the previous character was a backslash.
Returns the decoded content and the input after the closing quote. -/
def strLitAux : Bool → List Char → Option (List Char × List Char)
  | _, [] => none
  | true, d :: rest =>
    match unesc d, strLitAux false rest with
    | some e, some (v, r) => some (e :: v, r)
    | _, _ => none
  | false, c :: rest =>
    if c = '"' then some ([], rest)
    else if c = '\\' then strLitAux true rest
    else
      match strLitAux false rest with
      | some (v, r) => some (c :: v, r)
      | none => none

/-- Parse the body of a JSON string literal (opening quote already
consumed). -/
def strLit (s : List Char) : Option (List Char × List Char) := strLitAux false s

/-- Skip the whitespace emitted by `TxtToJSON` (spaces and newlines). -/
def skipWs (s : List Char) : List Char := s.dropWhile (fun c => c == ' ' || c == '\n')

/-- Parse the members of a JSON object after its opening brace (the fuel
only bounds recursion depth): `"k": "v"` pairs separated by commas,
returned with the input after the closing brace. -/
def parseMembers : Nat → List Char → Option (List (List Char × List Char) × List Char)
  | 0, _ => none
  | fuel + 1, s =>
    match skipWs s with
    | '"' :: r0 =>
      match strLit r0 with
      | none => none
      | some (k, r1) =>
        match skipWs r1 with
        | ':' :: r2 =>
          match skipWs r2 with
          | '"' :: r3 =>
            match strLit r3 with
            | none => none
            | some (v, r4) =>
              match skipWs r4 with
              | ',' :: r5 =>
                match parseMembers fuel r5 with
                | some (ms, r6) => some ((k, v) :: ms, r6)
                | none => none
              | '\x7d' :: r5 => some ([(k, v)], r5)
              | _ => none
          | _ => none
        | _ => none
    | _ => none

/-- Parse a whole input as a stream of JSON objects of string pairs;
`none` when the bytes are not a valid sequence of complete objects. -/
def parseObjects : Nat → List Char → Option (List (List (List Char × List Char)))
  | 0, _ => none
  | fuel + 1, s =>
    match skipWs s with
    | [] => some []
    | '\x7b' :: r =>
      match skipWs r with
      | '\x7d' :: r2 =>
        match parseObjects fuel r2 with
        | some os => some ([] :: os)
        | none => none
      | r2 =>
        match parseMembers (fuel + 1) r2 with
        | none => none
        | some (ms, r3) =>
          match parseObjects fuel r3 with
          | some os => some (ms :: os)
          | none => none
    | _ => none

/-- Run `parseObjects` with enough fuel for the whole input. -/
def parseRecords (s : List Char) : Option (List (List (List Char × List Char))) :=
  parseObjects (s.length + 1) s

/-! ### Record decoder (the `Survey` JSON decoding performed in `main`;
the decoding engine is Go's `encoding/json`, which is not part of this
repository, so it is modelled from the spec) -/

/-- Modelled from the spec: the value of a decimal digit. -/
def digitVal (c : Char) : Option ℕ :=
  if '0' ≤ c ∧ c ≤ '9' then some (c.toNat - ('0').toNat) else none

/-- Modelled from the spec: accumulate decimal digits; `none` on the
first non-digit. -/
def parseNatAux : ℕ → List Char → Option ℕ
  | acc, [] => some acc
  | acc, c :: cs =>
    match digitVal c with
    | some d => parseNatAux (10 * acc + d) cs
    | none => none

/-- Modelled from the spec: parse a nonempty all-digit string. -/
def parseNat : List Char → Option ℕ
  | [] => none
  | cs => parseNatAux 0 cs

/-- Modelled from the spec (§4.2: integer-typed fields parse the string
value as a base-10 integer): optional leading minus, then digits; `none`
on malformed input. -/
def parseInt : List Char → Option ℤ
  | '-' :: cs => (parseNat cs).map (fun n => -(n : ℤ))
  | cs => (parseNat cs).map (fun n => (n : ℤ))

/-- Last-wins lookup of a key in a flat record (Go's JSON decoding keeps
the last of duplicate keys — the spec's "last write wins"). -/
def lookupVal (fr : List (List Char × List Char)) (key : List Char) : Option (List Char) :=
  fr.foldl (fun acc kv => if kv.1 = key then some kv.2 else acc) none

/-- Modelled from the spec: a string-typed field decodes to the looked-up
value, or Go's zero value (the empty string) when the key is absent. -/
def strField (fr : List (List Char × List Char)) (key : List Char) : List Char :=
  (lookupVal fr key).getD []

/-- Modelled from the spec: an integer-typed field (`,string` tag)
decodes by parsing the looked-up value as a base-10 integer; on a missing
key or a parse failure the field non-fatally keeps Go's zero value `0`
(the diagnostic is only logged). -/
def intField (fr : List (List Char × List Char)) (key : List Char) : ℤ :=
  ((lookupVal fr key).bind parseInt).getD 0

/-- Modelled from the spec: decode one flat record into a `Survey` (done
in Go by `encoding/json` against the `Survey` struct tags; each key is
the field's JSON name — the tag where one is declared, the field name
otherwise).  Every field decodes independently: a diagnostic for one
field does not affect the others. -/
def decodeSurvey (fr : List (List Char × List Char)) : Survey :=
  { Country := strField fr (("Country").data)
    Course := strField fr (("Course").data)
    CourseVer := strField fr (("course_ver").data)
    Email := strField fr (("Email").data)
    FoundVer := strField fr (("found_ver").data)
    Instructor := strField fr (("Instructor").data)
    Language := strField fr (("Language").data)
    Modality := strField fr (("Modality").data)
    Name := strField fr (("Name").data)
    Progress := strField fr (("Progress").data)
    Q1508 := strField fr (("Q1508").data)
    Q207 := intField fr (("Q207").data)
    Q208 := intField fr (("Q208").data)
    Q209 := intField fr (("Q209").data)
    Q210 := intField fr (("Q210").data)
    Q508 := strField fr (("Q508").data)
    Q306 := intField fr (("Q306").data)
    Q307 := intField fr (("Q307").data)
    Q308 := intField fr (("Q308").data)
    Q320 := intField fr (("Q320").data)
    Q310 := intField fr (("Q310").data)
    Q318 := strField fr (("Q318").data)
    Q1901 := strField fr (("Q1901").data)
    Q1002 := intField fr (("Q1002").data)
    Q1003 := intField fr (("Q1003").data)
    Q1004 := intField fr (("Q1004").data)
    Q1005 := intField fr (("Q1005").data)
    Q1907 := strField fr (("Q1907").data)
    Q311 := intField fr (("Q311").data)
    Q410 := intField fr (("Q410").data)
    Q403 := strField fr (("Q403").data)
    Q109 := strField fr (("Q109").data)
    Q105 := strField fr (("Q105").data)
    Q111 := strField fr (("Q111").data)
    Q112 := strField fr (("Q112").data)
    Q113 := strField fr (("Q113").data)
    Q101 := strField fr (("Q101").data)
    Q1101 := strField fr (("Q1101").data)
    Q1201 := strField fr (("Q1201").data)
    Q1801 := strField fr (("Q1801").data)
    Q1401 := strField fr (("Q1401").data)
    Q1701 := strField fr (("Q1701").data)
    StartDate := strField fr (("start_date").data)
    Subscript := strField fr (("Subscript").data)
    SurveyDate := strField fr (("SurveyDate").data)
    SurveyVer := strField fr (("survey_ver").data) }

/-- The decode loop of `main` (`main.go` lines 168-177): every record is
decoded independently, and appended to the batch regardless of
per-record diagnostics. -/
def decodeAll (frs : List (List (List Char × List Char))) : List Survey :=
  frs.map decodeSurvey

/-! ### Helper lemmas about the classification -/

/-- The first arm of the `switch` fires exactly on scores `≥ 9`. -/
theorem classify_eq_promoter_iff (r : ℤ) : classify r = Bucket.promoter ↔ 9 ≤ r := by
  unfold classify
  split_ifs with h1 h2 h3
  · exact iff_of_true rfl h1
  · exact iff_of_false (by decide) h1
  · exact iff_of_false (by decide) h1
  · exact iff_of_false (by decide) h1

/-- The second arm of the `switch` fires exactly on scores in `[7, 9)`. -/
theorem classify_eq_passive_iff (r : ℤ) : classify r = Bucket.passive ↔ 7 ≤ r ∧ r < 9 := by
  unfold classify
  split_ifs with h1 h2 h3
  · exact iff_of_false (by decide) (by omega)
  · exact iff_of_true rfl (by omega)
  · exact iff_of_false (by decide) (by omega)
  · exact iff_of_false (by decide) (by omega)

/-- The third arm of the `switch` fires exactly on scores in `[0, 7)`. -/
theorem classify_eq_detractor_iff (r : ℤ) : classify r = Bucket.detractor ↔ 0 ≤ r ∧ r < 7 := by
  unfold classify
  split_ifs with h1 h2 h3
  · exact iff_of_false (by decide) (by omega)
  · exact iff_of_false (by decide) (by omega)
  · exact iff_of_true rfl (by omega)
  · exact iff_of_false (by decide) (by omega)

/-- The `switch` falls through (no counter incremented) exactly on negative scores. -/
theorem classify_eq_unclassified_iff (r : ℤ) : classify r = Bucket.unclassified ↔ r < 0 := by
  unfold classify
  split_ifs with h1 h2 h3
  · exact iff_of_false (by decide) (by omega)
  · exact iff_of_false (by decide) (by omega)
  · exact iff_of_false (by decide) (by omega)
  · exact iff_of_true rfl (by omega)

/-- The three bucket counters together count exactly the records whose
recommendation score is nonnegative. -/
theorem bucketSum_eq_countP (l : List Survey) :
    promoters l + passives l + detractors l
      = l.countP (fun s => decide (0 ≤ s.Q410)) := by
  induction l with
  | nil => rfl
  | cons a t ih =>
    simp only [promoters, passives, detractors, List.countP_cons, decide_eq_true_eq,
      classify_eq_promoter_iff, classify_eq_passive_iff, classify_eq_detractor_iff] at ih ⊢
    split_ifs <;> omega

/-! ### Claim theorems (aggregator) -/

/-- Claim C1: for every sequence of `N` survey records, including `N = 0`
and records that only partially decoded, the `Report` produced by
`NewReport` has `Responses = N`. -/
theorem NewReport_responses_eq_length (surveys : List Survey) :
    (NewReport surveys).Responses = surveys.length := rfl

/-- Claim C2: for nonnegative classification counts `p, s, d` with
`p + s + d > 0`, `NPS p s d` is a defined value in `[-100, 100]`; and for
every `k > 0`, `NPS k 0 0 = 100`, `NPS 0 0 k = -100` and `NPS 0 k 0 = 0`. -/
theorem NPS_bounds_and_extreme_values (p s d k : ℤ)
    (hp : 0 ≤ p) (hs : 0 ≤ s) (hd : 0 ≤ d) :
    (0 < p + s + d → ∃ q, NPS p s d = some q ∧ -100 ≤ q ∧ q ≤ 100) ∧
    (0 < k → NPS k 0 0 = some 100 ∧ NPS 0 0 k = some (-100) ∧ NPS 0 k 0 = some 0) := by
  have hp' : (0:ℚ) ≤ (p:ℚ) := by exact_mod_cast hp
  have hs' : (0:ℚ) ≤ (s:ℚ) := by exact_mod_cast hs
  have hd' : (0:ℚ) ≤ (d:ℚ) := by exact_mod_cast hd
  constructor
  · intro hsum
    have hT : (0:ℚ) < (p:ℚ) + (s:ℚ) + (d:ℚ) := by exact_mod_cast hsum
    refine ⟨((p:ℚ) - (d:ℚ)) / ((p:ℚ) + (s:ℚ) + (d:ℚ)) * 100, ?_, ?_, ?_⟩
    · simp [NPS, fdiv, hT.ne']
    · have h2 : (-1 : ℚ) ≤ ((p:ℚ) - (d:ℚ)) / ((p:ℚ) + (s:ℚ) + (d:ℚ)) := by
        rw [le_div_iff₀ hT]
        linarith
      nlinarith [h2]
    · have h1 : ((p:ℚ) - (d:ℚ)) / ((p:ℚ) + (s:ℚ) + (d:ℚ)) ≤ 1 := by
        rw [div_le_one hT]
        linarith
      nlinarith [h1]
  · intro hk
    have hk' : ((k:ℚ)) ≠ 0 := by
      have : (0:ℚ) < (k:ℚ) := by exact_mod_cast hk
      exact this.ne'
    refine ⟨?_, ?_, ?_⟩
    · simp [NPS, fdiv, hk', div_self hk']
    · simp [NPS, fdiv, hk', neg_div, div_self hk']
    · simp [NPS, fdiv, hk']

/-- Witness for C2 at `p = 2, s = 1, d = 1` and `k = 3`. -/
theorem NPS_bounds_and_extreme_values_witness :
    (∃ q, NPS 2 1 1 = some q ∧ -100 ≤ q ∧ q ≤ 100) ∧
    (NPS 3 0 0 = some 100 ∧ NPS 0 0 3 = some (-100) ∧ NPS 0 3 0 = some 0) := by
  have h := NPS_bounds_and_extreme_values 2 1 1 3 (by norm_num) (by norm_num) (by norm_num)
  exact ⟨h.1 (by norm_num), h.2 (by norm_num)⟩

/-- Claim C3: the aggregator classifies a recommendation score `r` as a
promoter iff `r ≥ 9`, as a passive iff `7 ≤ r < 9`, as a detractor iff
`0 ≤ r < 7`; every other score (exactly the negative ones) lands in the
explicit fall-through bucket and in particular is not counted as a
detractor. -/
theorem classify_bucket_characterization (r : ℤ) :
    (classify r = Bucket.promoter ↔ 9 ≤ r) ∧
    (classify r = Bucket.passive ↔ 7 ≤ r ∧ r < 9) ∧
    (classify r = Bucket.detractor ↔ 0 ≤ r ∧ r < 7) ∧
    (classify r = Bucket.unclassified ↔ r < 0) :=
  ⟨classify_eq_promoter_iff r, classify_eq_passive_iff r,
    classify_eq_detractor_iff r, classify_eq_unclassified_iff r⟩

/-- Counterexample to claim C4: on the empty batch every category average
and the NPS score of `NewReport` is the non-finite float64 value NaN
(modelled as `none`), not a well-defined numeric sentinel: the code
performs the divisions `0/0` unguarded. -/
theorem degenerate_batch_yields_nan :
    (NewReport []).CurriculumAvg = none ∧ (NewReport []).InstructorAvg = none ∧
    (NewReport []).EnvironmentAvg = none ∧ (NewReport []).OverallAvg = none ∧
    (NewReport []).NPS = none := by
  refine ⟨rfl, rfl, rfl, rfl, ?_⟩
  norm_num [NewReport, NPS, fdiv, promoters, passives, detractors, List.countP_nil]

/-- Claim C4 as amended: on a zero-record batch all four category
averages and the NPS are the NaN of the unguarded `0/0` float division
(modelled `none`), and whenever all three NPS buckets are empty the NPS
is likewise NaN; no sentinel value is substituted. -/
theorem degenerate_batch_nan_amended (l : List Survey) :
    (l.length = 0 →
      (NewReport l).CurriculumAvg = none ∧ (NewReport l).InstructorAvg = none ∧
      (NewReport l).EnvironmentAvg = none ∧ (NewReport l).OverallAvg = none ∧
      (NewReport l).NPS = none) ∧
    (promoters l + passives l + detractors l = 0 → (NewReport l).NPS = none) := by
  constructor
  · intro h
    have h0 : l = [] := List.length_eq_zero.mp h
    subst h0
    refine ⟨rfl, rfl, rfl, rfl, ?_⟩
    norm_num [NewReport, NPS, fdiv, promoters, passives, detractors, List.countP_nil]
  · intro h
    have h1 : promoters l = 0 := by omega
    have h2 : passives l = 0 := by omega
    have h3 : detractors l = 0 := by omega
    simp [NewReport, NPS, fdiv, h1, h2, h3]

/-- Witness for the amended C4 at the empty batch. -/
theorem degenerate_batch_nan_amended_witness :
    ((NewReport ([] : List Survey)).CurriculumAvg = none ∧
      (NewReport ([] : List Survey)).InstructorAvg = none ∧
      (NewReport ([] : List Survey)).EnvironmentAvg = none ∧
      (NewReport ([] : List Survey)).OverallAvg = none ∧
      (NewReport ([] : List Survey)).NPS = none) ∧
    (NewReport ([] : List Survey)).NPS = none := by
  have h := degenerate_batch_nan_amended []
  exact ⟨h.1 rfl, h.2 rfl⟩

/-- Counterexample to claim C9: a record whose recommendation score is
negative (here `-1`) is counted in the averages' denominator
(`Responses`) but in none of the three NPS buckets, so the NPS
denominator differs from the response count. -/
theorem negative_score_outside_buckets :
    promoters [({ Q410 := -1 } : Survey)] + passives [({ Q410 := -1 } : Survey)]
        + detractors [({ Q410 := -1 } : Survey)]
      ≠ (NewReport [({ Q410 := -1 } : Survey)]).Responses := by
  decide

/-- Claim C9 as amended: the three NPS buckets together count exactly the
records with a nonnegative recommendation score — each such record lands
in exactly one bucket — and therefore the NPS denominator equals the
response count whenever every record's score is nonnegative (records
with a negative score are counted in `Responses` but in no bucket). -/
theorem bucket_total_counts_nonnegative_scores (l : List Survey) :
    promoters l + passives l + detractors l
        = l.countP (fun s => decide (0 ≤ s.Q410)) ∧
    ((∀ s ∈ l, 0 ≤ s.Q410) →
      promoters l + passives l + detractors l = (NewReport l).Responses) := by
  refine ⟨bucketSum_eq_countP l, fun h => ?_⟩
  rw [bucketSum_eq_countP l]
  have hr : (NewReport l).Responses = l.length := rfl
  rw [hr, List.countP_eq_length]
  intro a ha
  simpa using h a ha

/-- Witness for the amended C9 at a single all-promoter record. -/
theorem bucket_total_counts_nonnegative_scores_witness :
    (promoters [({ Q410 := 9 } : Survey)] + passives [({ Q410 := 9 } : Survey)]
        + detractors [({ Q410 := 9 } : Survey)]
      = List.countP (fun s => decide (0 ≤ s.Q410)) [({ Q410 := 9 } : Survey)]) ∧
    promoters [({ Q410 := 9 } : Survey)] + passives [({ Q410 := 9 } : Survey)]
        + detractors [({ Q410 := 9 } : Survey)]
      = (NewReport [({ Q410 := 9 } : Survey)]).Responses := by
  have h := bucket_total_counts_nonnegative_scores [({ Q410 := 9 } : Survey)]
  exact ⟨h.1, h.2 (by decide)⟩


/-! ### Claim theorems (text parser) -/

/-- A line without `=` anywhere in the input stops the scan right there:
the lines after it are never examined, and the result is the buffer
accumulated over the preceding lines together with the fixed error
message. -/
theorem scanLines_stops :
    ∀ (pre : List (List Char)) (bad : List Char) (rest : List (List Char)) (buf : List Char),
      (∀ l ∈ pre, lineHasEq l = true) → lineHasEq bad = false →
      scanLines buf (pre ++ bad :: rest)
        = ((scanLines buf pre).1, some (("invalid input").data)) := by
  intro pre
  induction pre with
  | nil =>
    intro bad rest buf hpre hbad
    simp [scanLines, hbad]
  | cons l t ih =>
    intro bad rest buf hpre hbad
    have hl : lineHasEq l = true := hpre l (List.mem_cons_self l t)
    have ht : ∀ x ∈ t, lineHasEq x = true := fun x hx => hpre x (List.mem_cons_of_mem l hx)
    by_cases hsep : l = ("=").data
    · simp only [List.cons_append, scanLines, hl, hsep]
      simp only [Bool.true_eq_false, if_false, if_true, reduceIte]
      exact ih bad rest _ ht hbad
    · simp only [List.cons_append, scanLines, hl, hsep]
      simp only [Bool.true_eq_false, if_false, reduceIte]
      exact ih bad rest _ ht hbad

/-- Counterexample to claim C5: the error returned for a delimiter-less
line is the fixed text `invalid input`, identical for different offending
lines and not containing the offending line's content, so it does not
identify that content. -/
theorem invalid_line_error_is_generic :
    (TxtToJSON [("garbage!").data]).2 = some (("invalid input").data) ∧
    (TxtToJSON [("xyz").data]).2 = some (("invalid input").data) ∧
    hasSub (("garbage!").data) (("invalid input").data) = false := by
  exact ⟨by decide, by decide, by decide⟩

/-- Claim C5 as amended: a line without `=` makes `TxtToJSON` stop
immediately at that line — the remaining lines are never processed — and
return the fixed error message `invalid input` (which does not include
the offending line) together with the partial buffer; `main` then aborts
without producing a report. -/
theorem invalid_line_aborts_with_fixed_error
    (pre : List (List Char)) (bad : List Char) (rest : List (List Char))
    (hpre : ∀ l ∈ pre, lineHasEq l = true) (hbad : lineHasEq bad = false) :
    TxtToJSON (pre ++ bad :: rest)
      = ((scanLines (("\x7b\n").data) pre).1, some (("invalid input").data)) := by
  have h := scanLines_stops pre bad rest (("\x7b\n").data) hpre hbad
  simp [TxtToJSON, h]

/-- Witness for the amended C5: one good line, one bad line, one
never-reached line. -/
theorem invalid_line_aborts_with_fixed_error_witness :
    TxtToJSON ([("a=1").data] ++ ("nope").data :: [("b=2").data])
      = ((scanLines (("\x7b\n").data) [("a=1").data]).1, some (("invalid input").data)) :=
  invalid_line_aborts_with_fixed_error [("a=1").data] (("nope").data) [("b=2").data]
    (by decide) (by decide)

/-- Claim C7: a line with the compound key `Q12-15` and any value `V`
produces exactly the same formatted output — hence the same decoded
record — as a line with the pre-merged key `Q1215` and the same `V`: the
dash is stripped from the key during normalization. -/
theorem dash_key_normalization_roundtrip (V : List Char) :
    dataLine (("Q12-15=").data ++ V) = dataLine (("Q1215=").data ++ V) ∧
    TxtToJSON [("Q12-15=").data ++ V] = TxtToJSON [("Q1215=").data ++ V] :=
  ⟨rfl, rfl⟩

/-- Counterexample to claim C8: for input whose final record is not
terminated by the separator `=` before end-of-stream, the emitted bytes
are not a parseable sequence of complete JSON objects (the final object
is never closed), whereas the same record followed by the separator
parses to exactly that record.  The final record is therefore not
"emitted as a complete record". -/
theorem unterminated_final_record_not_complete :
    parseRecords ((TxtToJSON [("Q410=9").data, ("survey_ver=1").data]).1) = none ∧
    parseRecords ((TxtToJSON [("Q410=9").data, ("survey_ver=1").data, ("=").data]).1)
      = some [[(("Q410").data, ("9").data), (("survey_ver").data, ("1").data)]] := by
  exact ⟨by decide, by decide⟩

/-- Replacing the first comma-newline pair in a string that ends with
`",\n"` leaves a string that still ends in `'"'` or `','` followed by a
single `'\n'`. -/
theorem replaceCommaNl_ends :
    ∀ (u : List Char), ∃ Z c, replaceCommaNl (u ++ [('"' : Char), ',', '\n']) = Z ++ [c, '\n']
      ∧ (c = '"' ∨ c = ',') := by
  intro u
  induction u with
  | nil => exact ⟨[], '"', by decide, Or.inl rfl⟩
  | cons a u' ih =>
    cases u' with
    | nil =>
      refine ⟨[a], '"', ?_, Or.inl rfl⟩
      show replaceCommaNl (a :: ([] ++ [('"' : Char), ',', '\n'])) = [a] ++ [('"' : Char), '\n']
      simp [replaceCommaNl]
    | cons b u'' =>
      by_cases hab : a = ',' ∧ b = '\n'
      · obtain ⟨ha, hb⟩ := hab
        subst ha
        subst hb
        refine ⟨'\n' :: (u'' ++ [('"' : Char)]), ',', ?_, Or.inr rfl⟩
        show replaceCommaNl ((',' :: '\n' :: u'') ++ [('"' : Char), ',', '\n'])
          = ('\n' :: (u'' ++ [('"' : Char)])) ++ [',', '\n']
        simp [replaceCommaNl]
      · obtain ⟨Z, c, hZ, hc⟩ := ih
        refine ⟨a :: Z, c, ?_, hc⟩
        show replaceCommaNl ((a :: b :: u'') ++ [('"' : Char), ',', '\n']) = (a :: Z) ++ [c, '\n']
        simp only [List.cons_append, replaceCommaNl, if_neg hab]
        exact congrArg (fun t => a :: t) hZ

/-- Both branches of the `survey_ver` comma fix leave a formatted data
line that ends in `'"'` or `','` followed by a single `'\n'`. -/
theorem if_out_ends (u : List Char) :
    ∃ Z c, (if hasSub (("survey_ver").data) (u ++ ("\",\n").data)
        then replaceCommaNl (u ++ ("\",\n").data) else u ++ ("\",\n").data) = Z ++ [c, '\n']
      ∧ (c = '"' ∨ c = ',') := by
  have hS : u ++ ("\",\n").data = u ++ [('"' : Char), ',', '\n'] := rfl
  by_cases h : hasSub (("survey_ver").data) (u ++ ("\",\n").data) = true
  · rw [if_pos h, hS]
    exact replaceCommaNl_ends u
  · refine ⟨u ++ [('"' : Char)], ',', ?_, Or.inr rfl⟩
    rw [if_neg h, hS]
    simp

/-- Every formatted data line ends in `'"'` or `','` followed by exactly
one `'\n'` (so exactly one trailing character of a data line lies in the
`TrimRight` cutset). -/
theorem dataLine_ends (d : List Char) :
    ∃ Z c, dataLine d = Z ++ [c, '\n'] ∧ (c = '"' ∨ c = ',') :=
  if_out_ends
    (("  \"").data ++ dropDash ((splitEq d).headD []) ++ ("\": \"").data ++ (splitEq d).getD 1 [])

/-- Scanning lines that all contain `=` never errors, and scanning a
concatenation continues from the accumulated buffer. -/
theorem scanLines_valid_append :
    ∀ (ls more : List (List Char)) (buf : List Char), (∀ l ∈ ls, lineHasEq l = true) →
      scanLines buf (ls ++ more) = scanLines (scanLines buf ls).1 more := by
  intro ls
  induction ls with
  | nil => intro more buf _; rfl
  | cons l t ih =>
    intro more buf h
    have hl : lineHasEq l = true := h l (List.mem_cons_self l t)
    have ht : ∀ x ∈ t, lineHasEq x = true := fun x hx => h x (List.mem_cons_of_mem l hx)
    by_cases hsep : l = ("=").data
    · simp only [List.cons_append, scanLines, hl, hsep]
      simp only [Bool.true_eq_false, if_false, reduceIte]
      exact ih more _ ht
    · simp only [List.cons_append, scanLines, hl, hsep]
      simp only [Bool.true_eq_false, if_false, reduceIte]
      exact ih more _ ht

/-- Trimming after a record separator removes exactly the freshly opened
empty object and the separator newlines, closing the stream at `\x7d`. -/
theorem trimBraceNl_close (X : List Char) :
    trimBraceNl (X ++ ("\x7d\n\x7b\n").data) = X ++ [('\x7d' : Char)] := by
  simp [trimBraceNl, List.reverse_append, List.dropWhile_cons]

/-- Trimming a buffer that ends with one newline preceded by a character
outside the cutset removes exactly that newline. -/
theorem trimBraceNl_last (W : List Char) (c : Char) (hc : (c == '\x7b' || c == '\n') = false) :
    trimBraceNl (W ++ [c, '\n']) = W ++ [c] := by
  simp [trimBraceNl, List.reverse_append, List.dropWhile_cons, hc]

/-- For any well-formed lines `ls`, appending the separator line `=`
yields exactly the scanned content of `ls` closed with `\x7d`, with no
error: the separator's freshly opened empty object is trimmed away, so no
phantom record follows the last real one. -/
theorem txt_trailing_sep (ls : List (List Char)) (hls : ∀ l ∈ ls, lineHasEq l = true) :
    TxtToJSON (ls ++ [("=").data])
      = ((scanLines (("\x7b\n").data) ls).1 ++ [('\x7d' : Char)], none) := by
  have happ := scanLines_valid_append ls [("=").data] (("\x7b\n").data) hls
  have hstep : scanLines ((scanLines (("\x7b\n").data) ls).1) [("=").data]
      = ((scanLines (("\x7b\n").data) ls).1 ++ ("\x7d\n\x7b\n").data, none) := rfl
  unfold TxtToJSON
  rw [happ, hstep]
  show (trimBraceNl ((scanLines (("\x7b\n").data) ls).1 ++ ("\x7d\n\x7b\n").data), none)
    = ((scanLines (("\x7b\n").data) ls).1 ++ [('\x7d' : Char)], none)
  rw [trimBraceNl_close]

/-- Claim C8 as amended: empty input yields empty output and no error;
for every sequence of well-formed lines, a trailing separator leaves no
phantom empty record (the output is exactly the scanned records closed
with `\x7d`, nothing after it); and for every input whose final line is a
data line — a final record not terminated by `=` — the output is exactly
the terminated input's output minus the closing `\n\x7d`, i.e. the final
record's object is emitted unclosed, not as a complete (decodable)
record. -/
theorem final_record_framing_amended
    (ls : List (List Char)) (d : List Char)
    (hls : ∀ l ∈ ls, lineHasEq l = true)
    (hd : lineHasEq d = true) (hsep : d ≠ ("=").data) :
    TxtToJSON [] = ([], none) ∧
    TxtToJSON (ls ++ [("=").data])
      = ((scanLines (("\x7b\n").data) ls).1 ++ [('\x7d' : Char)], none) ∧
    (TxtToJSON ((ls ++ [d]) ++ [("=").data])).1
      = (TxtToJSON (ls ++ [d])).1 ++ ("\n\x7d").data := by
  refine ⟨by decide, txt_trailing_sep ls hls, ?_⟩
  have hall : ∀ l ∈ ls ++ [d], lineHasEq l = true := by
    intro l hl
    rcases List.mem_append.mp hl with h | h
    · exact hls l h
    · rw [List.mem_singleton.mp h]
      exact hd
  have hxd : scanLines (("\x7b\n").data) (ls ++ [d])
      = ((scanLines (("\x7b\n").data) ls).1 ++ dataLine d, none) := by
    rw [scanLines_valid_append ls [d] (("\x7b\n").data) hls]
    simp only [scanLines, hd, hsep]
    simp [scanLines]
  have htxt : TxtToJSON (ls ++ [d])
      = (trimBraceNl ((scanLines (("\x7b\n").data) ls).1 ++ dataLine d), none) := by
    unfold TxtToJSON
    rw [hxd]
  rw [txt_trailing_sep (ls ++ [d]) hall, htxt]
  obtain ⟨Z, c, hZ, hc⟩ := dataLine_ends d
  have hc' : (c == '\x7b' || c == '\n') = false := by
    rcases hc with h | h <;> subst h <;> decide
  rw [hxd, hZ]
  rw [show (scanLines (("\x7b\n").data) ls).1 ++ (Z ++ [c, '\n'])
      = ((scanLines (("\x7b\n").data) ls).1 ++ Z) ++ [c, '\n'] from (List.append_assoc _ _ _).symm]
  rw [trimBraceNl_last _ c hc']
  simp

/-- Witness for the amended C8 at one record line and a `survey_ver`
final line. -/
theorem final_record_framing_amended_witness :
    TxtToJSON [] = ([], none) ∧
    TxtToJSON ([("Q410=9").data] ++ [("=").data])
      = ((scanLines (("\x7b\n").data) [("Q410=9").data]).1 ++ [('\x7d' : Char)], none) ∧
    (TxtToJSON (([("Q410=9").data] ++ [("survey_ver=1").data]) ++ [("=").data])).1
      = (TxtToJSON ([("Q410=9").data] ++ [("survey_ver=1").data])).1 ++ ("\n\x7d").data :=
  final_record_framing_amended [("Q410=9").data] (("survey_ver=1").data)
    (by decide) (by decide) (by decide)

/-- Splitting a delimiter-free string leaves it whole. -/
theorem splitEq_no_eq {cs : List Char} (h : ('=' : Char) ∉ cs) : splitEq cs = [cs] := by
  induction cs with
  | nil => rfl
  | cons c t ih =>
    have hc : ¬ c = '=' := fun hcc => h (by simp [hcc])
    have ht : ('=' : Char) ∉ t := fun hx => h (List.mem_cons_of_mem c hx)
    simp [splitEq, hc, ih ht]

/-- A successful string-literal parse consumes at least one character
beyond the decoded content plus the rest (the closing quote), and, when
started outside an escape, consumes exactly one extra character only if
the decoded content used no escape, i.e. contains neither a quote nor a
backslash. -/
theorem strLitAux_consumed :
    ∀ (xs : List Char) (esc : Bool) (v r : List Char), strLitAux esc xs = some (v, r) →
      v.length + r.length + 1 ≤ xs.length ∧
      (v.length + r.length + 1 = xs.length → esc = false →
        ('"' : Char) ∉ v ∧ ('\\' : Char) ∉ v) := by
  intro xs
  induction xs with
  | nil =>
    intro esc v r h
    cases esc <;> exact Option.noConfusion h
  | cons c rest ih =>
    intro esc v r h
    cases esc with
    | true =>
      simp only [strLitAux] at h
      cases hu : unesc c with
      | none => rw [hu] at h; simp at h
      | some e =>
        rw [hu] at h
        cases hs : strLitAux false rest with
        | none => rw [hs] at h; simp at h
        | some p =>
          obtain ⟨v', r'⟩ := p
          rw [hs] at h
          injection h with h1
          injection h1 with hv hr
          subst hv
          subst hr
          have hrec := (ih false v' r' hs).1
          refine ⟨?_, fun _ hfalse => Bool.noConfusion hfalse⟩
          simp only [List.length_cons]
          omega
    | false =>
      simp only [strLitAux] at h
      by_cases hq : c = '"'
      · rw [if_pos hq] at h
        injection h with h1
        injection h1 with hv hr
        subst hv
        subst hr
        refine ⟨by simp, fun _ _ => ⟨by simp, by simp⟩⟩
      · by_cases hb : c = '\\'
        · rw [if_neg hq, if_pos hb] at h
          have hrec := (ih true v r h).1
          constructor
          · simp only [List.length_cons]
            omega
          · intro heq _
            exfalso
            simp only [List.length_cons] at heq
            omega
        · rw [if_neg hq, if_neg hb] at h
          cases hs : strLitAux false rest with
          | none => rw [hs] at h; simp at h
          | some p =>
            obtain ⟨v', r'⟩ := p
            rw [hs] at h
            injection h with h1
            injection h1 with hv hr
            subst hv
            subst hr
            have hrec := ih false v' r' hs
            constructor
            · have h1 := hrec.1
              simp only [List.length_cons]
              omega
            · intro heq _
              have h1 : v'.length + r'.length + 1 = rest.length := by
                simp only [List.length_cons] at heq
                omega
              have h2 := hrec.2 h1 rfl
              constructor
              · simp only [List.mem_cons, not_or]
                exact ⟨fun hc => hq hc.symm, h2.1⟩
              · simp only [List.mem_cons, not_or]
                exact ⟨fun hc => hb hc.symm, h2.2⟩

/-- Claim C10: `dataLine` copies the key and the value into its output
verbatim, with no character escaping; consequently, whenever the value
contains a double quote or a backslash, the emitted string literal is not
a valid JSON encoding of that value (decoding it cannot return exactly
the value with the literal fully consumed), and a concrete record whose
comment value contains a quote makes the whole `TxtToJSON` output
unparseable. -/
theorem verbatim_emission_breaks_json (V : List Char)
    (hnoEq : ('=' : Char) ∉ V)
    (hsv : hasSub (("survey_ver").data)
        (("  \"").data ++ ("Q403").data ++ ("\": \"").data ++ V ++ ("\",\n").data) = false)
    (hqb : ('"' : Char) ∈ V ∨ ('\\' : Char) ∈ V) :
    dataLine (("Q403=").data ++ V)
        = ("  \"").data ++ ("Q403").data ++ ("\": \"").data ++ V ++ ("\",\n").data ∧
    strLit (V ++ [('"' : Char)]) ≠ some (V, []) ∧
    parseRecords ((TxtToJSON [("Q403=a\"b").data, ("survey_ver=1").data, ("=").data]).1)
      = none := by
  refine ⟨?_, ?_, by decide⟩
  · have hs : splitEq (("Q403=").data ++ V) = [("Q403").data, V] := by
      rw [show splitEq (("Q403=").data ++ V) = ("Q403").data :: splitEq V from rfl,
        splitEq_no_eq hnoEq]
    simp only [dataLine, hs, List.headD_cons, List.getD_cons_succ, List.getD_cons_zero]
    rw [show dropDash (("Q403").data) = ("Q403").data from rfl]
    simp at hsv
    simp [hsv]
  · intro hcontra
    have h := strLitAux_consumed (V ++ [('"' : Char)]) false V [] hcontra
    have hlen : V.length + ([] : List Char).length + 1 = (V ++ [('"' : Char)]).length := by simp
    have h2 := h.2 hlen rfl
    rcases hqb with h1 | h1
    · exact h2.1 h1
    · exact h2.2 h1

/-- Witness for C10 at the value `a"b` (a free-text answer containing a
double quote). -/
theorem verbatim_emission_breaks_json_witness :
    (dataLine (("Q403=").data ++ ("a\"b").data)
        = ("  \"").data ++ ("Q403").data ++ ("\": \"").data ++ ("a\"b").data ++ ("\",\n").data) ∧
    strLit (("a\"b").data ++ [('"' : Char)]) ≠ some ((("a\"b").data), []) ∧
    parseRecords ((TxtToJSON [("Q403=a\"b").data, ("survey_ver=1").data, ("=").data]).1)
      = none := by
  have h := verbatim_emission_breaks_json (("a\"b").data) (by decide) (by decide)
    (Or.inl (by decide))
  exact h

/-! ### Claim theorems (record decoder) -/

/-- Folding the lookup step over entries none of which carry the key
leaves the accumulator unchanged. -/
theorem foldl_lookup_no_match :
    ∀ (fr : List (List Char × List Char)) (key : List Char) (acc : Option (List Char)),
      (∀ kv ∈ fr, kv.1 ≠ key) →
      fr.foldl (fun acc kv => if kv.1 = key then some kv.2 else acc) acc = acc := by
  intro fr key
  induction fr with
  | nil => intro acc _; rfl
  | cons kv t ih =>
    intro acc h
    have h1 : kv.1 ≠ key := h kv (List.mem_cons_self kv t)
    have h2 : ∀ x ∈ t, x.1 ≠ key := fun x hx => h x (List.mem_cons_of_mem kv hx)
    simp only [List.foldl_cons, if_neg h1]
    exact ih acc h2

/-- A record starting with `(key, v)` whose remaining entries do not
mention `key` looks `key` up to `v`. -/
theorem lookupVal_cons_self (fr : List (List Char × List Char)) (key v : List Char)
    (hk : ∀ kv ∈ fr, kv.1 ≠ key) :
    lookupVal ((key, v) :: fr) key = some v := by
  simp only [lookupVal, List.foldl_cons, if_pos rfl]
  exact foldl_lookup_no_match fr key (some v) hk

/-- Claim C6: a record with a non-numeric string in an integer-typed
field (here `Q207`) decodes non-fatally: the failing field defaults to
its zero value while every other field of the same record decodes as it
would without the bad entry; the record still counts toward
`Report.Responses`; and subsequent records are decoded unaffected (the
decoder and aggregator are total functions — nothing crashes). -/
theorem malformed_field_nonfatal
    (v : List Char) (fr : List (List Char × List Char)) (ss : List Survey)
    (frs : List (List (List Char × List Char)))
    (hv : parseInt v = none)
    (hk : ∀ kv ∈ fr, kv.1 ≠ ("Q207").data) :
    decodeSurvey ((("Q207").data, v) :: fr) = { decodeSurvey fr with Q207 := 0 } ∧
    (NewReport (ss ++ [decodeSurvey ((("Q207").data, v) :: fr)])).Responses = ss.length + 1 ∧
    decodeAll (((("Q207").data, v) :: fr) :: frs)
      = decodeSurvey ((("Q207").data, v) :: fr) :: decodeAll frs := by
  refine ⟨?_, by simp [NewReport], rfl⟩
  have hl : lookupVal ((("Q207").data, v) :: fr) (("Q207").data) = some v :=
    lookupVal_cons_self fr (("Q207").data) v hk
  have hQ : intField ((("Q207").data, v) :: fr) (("Q207").data) = 0 := by
    simp [intField, hl, hv]
  have hstep : decodeSurvey ((("Q207").data, v) :: fr)
      = { decodeSurvey fr with
            Q207 := intField ((("Q207").data, v) :: fr) (("Q207").data) } := rfl
  rw [hstep, hQ]

/-- Witness for C6: value `abc` in `Q207`, with a well-formed `Q410`
entry in the same record. -/
theorem malformed_field_nonfatal_witness :
    decodeSurvey [((("Q207").data), ("abc").data), ((("Q410").data), ("9").data)]
        = { decodeSurvey [((("Q410").data), ("9").data)] with Q207 := 0 } ∧
    (NewReport (([] : List Survey)
        ++ [decodeSurvey [((("Q207").data), ("abc").data), ((("Q410").data), ("9").data)]])).Responses
      = ([] : List Survey).length + 1 ∧
    decodeAll [[((("Q207").data), ("abc").data), ((("Q410").data), ("9").data)]]
      = decodeSurvey [((("Q207").data), ("abc").data), ((("Q410").data), ("9").data)]
          :: decodeAll [] :=
  malformed_field_nonfatal (("abc").data) [((("Q410").data), ("9").data)] [] []
    (by decide) (by decide)
